import Mathlib

/-!
Verification of the LibraDesk lending engine (`Assessment3/Assessment.py`,
class `LibraryDB` and the overdue report in `LibraDeskApp._overdue_list`).

Modelling conventions:
* Dates are day ordinals (`Int`).  The source stores `borrow_date` as a full
  timestamp and `due_date`/`return_date` as ISO dates; every computation the
  claims mention is at date granularity.  In Python,
  `(today - due).days` with `due` at midnight equals the difference of the
  two day ordinals regardless of `today`'s time of day (`timedelta.days`
  floors, and the time-of-day fraction is in `[0, 1)`), so the ordinal model
  is exact.  `now + timedelta(days=d)` on a naive datetime shifts the date
  part by exactly `d`, so `due.date() = now.date() + d`.
* SQLite `INTEGER` columns are `Int`; `AUTOINCREMENT` keys are the counters
  `nextBook` / `nextTx`, and `INSERT` appends, so rows sit in ascending key
  order and `ORDER BY tx_id DESC` is `List.reverse`.
* The source signals every failure as a raised exception; the spec names the
  distinct failure sites with distinct error types.  The sites are
  distinguishable in the source (distinct messages / exception classes:
  `ValidationError("Book not available")`, `ValidationError("Invalid
  transaction or already returned")`, `ValidationError("DB error: ...")`
  wrapping a `sqlite3.Error`, and `sqlite3.IntegrityError` from the
  `UNIQUE(isbn)` constraint), so we embed them as constructors of one error
  type named after the spec's taxonomy.
* A `sqlite3.Error` raised by the k-th SQL statement of an operation is
  injected through an optional `(statement index, str(e))` argument.  The
  `with self.conn:` block commits on success and rolls back on an exception,
  so a failed operation yields only the error, never a state.
* Python truthiness of `tx["return_date"]` (NULL or a non-empty ISO date
  string) is `Option.isSome`.
* Python's `\d` also matches non-ASCII Unicode decimal digits; we use ASCII
  `Char.isDigit`, which agrees on every input the claims touch.
-/

namespace LibraDesk

/-- Error taxonomy of the lending engine; see the header comment for the
mapping to the concrete raise sites in the source. -/
inductive LibError where
  | validation : String → LibError
  | unavailable : LibError
  | invalidTransaction : LibError
  | storage : String → LibError
  | duplicate : LibError
  deriving DecidableEq, Repr

/-- Row of the `members` table. -/
structure Member where
  member_id : Nat
  name : String
  email : String
  deriving DecidableEq, Repr

/-- Row of the `books` table. -/
structure Book where
  book_id : Nat
  title : String
  author : String
  genre : String
  isbn : String
  available : Int
  deriving DecidableEq, Repr

/-- Row of the `transactions` table. -/
structure Transaction where
  tx_id : Nat
  member_id : Nat
  book_id : Nat
  borrow_date : Int
  due_date : Int
  return_date : Option Int
  fine : Int
  deriving DecidableEq, Repr

/-- The persisted database state (the three tables plus the autoincrement
counters for `books.book_id` and `transactions.tx_id`). -/
structure LibState where
  members : List Member
  books : List Book
  transactions : List Transaction
  nextBook : Nat
  nextTx : Nat
  deriving DecidableEq, Repr

/-- Ten-character ISBN core `\d  { 9 } (\d|X)` of the first regex alternative. -/
def isbnCore (cs : List Char) : Bool :=
  cs.length == 10 && (cs.take 9).all (fun c => c.isDigit) &&
    (match cs.drop 9 with
     | [c] => c.isDigit || c == 'X'
     | _ => false)

/-- First alternative of the ISBN regex, `^(97(8|9))?\d  { 9 } (\d|X)$`:
the optional greedy group backtracks, so the anchored match succeeds iff the
bare ten-character core matches or a `978`/`979` head is followed by it. -/
def isbnAlt13 (cs : List Char) : Bool :=
  isbnCore cs ||
    ((cs.take 3 == ['9', '7', '8'] || cs.take 3 == ['9', '7', '9']) &&
      isbnCore (cs.drop 3))

/-- A run of 1 to `maxLen` ASCII digits. -/
def digitGroup (g : List Char) (maxLen : Nat) : Bool :=
  1 ≤ g.length && g.length ≤ maxLen && g.all (fun c => c.isDigit)

/-- Split a character list into the maximal runs between hyphens (the
hyphen-group structure the second regex alternative constrains); on the empty
input this is one empty group, mirroring `str.split`. -/
def splitHyphens : List Char → List (List Char)
  | [] => [[]]
  | c :: rest =>
      let gs := splitHyphens rest
      if c == '-' then [] :: gs
      else
        match gs with
        | g :: gs₂ => (c :: g) :: gs₂
        | [] => [[c]]

/-- Second alternative of the ISBN regex,
`^\d  { 1,5 } -\d  { 1,7 } -\d  { 1,7 } -[\dX]$`.  Since `\d` never matches a
hyphen, the anchored match succeeds iff the string consists of exactly four
hyphen-separated groups of the right shapes. -/
def isbnAltHyphen (cs : List Char) : Bool :=
  match splitHyphens cs with
  | [g1, g2, g3, g4] =>
      digitGroup g1 5 && digitGroup g2 7 && digitGroup g3 7 &&
        (match g4 with
         | [c] => c.isDigit || c == 'X'
         | _ => false)
  | _ => false

/-- `LibraryDB._validate_isbn`'s regex
`^(97(8|9))?\d  { 9 } (\d|X)$|^\d  { 1,5 } -\d  { 1,7 } -\d  { 1,7 } -[\dX]$`
as an anchored-match decision procedure. -/
def validIsbn (s : String) : Bool :=
  isbnAlt13 s.data || isbnAltHyphen s.data

/-- Query `SELECT * FROM books WHERE book_id=?` (primary-key lookup). -/
def findBook (s : LibState) (b : Nat) : Option Book :=
  s.books.find? (fun bk => bk.book_id == b)

/-- The `available` column of the named book, when the book exists. -/
def availOf (s : LibState) (b : Nat) : Option Int :=
  (findBook s b).map (fun bk => bk.available)

/-- Query `SELECT * FROM transactions WHERE tx_id=?` (primary-key lookup). -/
def findTx (s : LibState) (i : Nat) : Option Transaction :=
  s.transactions.find? (fun t => t.tx_id == i)

/-- Embedding of `LibraryDB.add_book`: validate the ISBN, then
`INSERT INTO books(title,author,genre,isbn,available)`, which hits the
`UNIQUE` constraint on `isbn` when a row with that ISBN exists and otherwise
returns the fresh `lastrowid`. -/
def add_book (s : LibState) (title author genre isbn : String) (available : Int) :
    Except LibError (Nat × LibState) :=
  if ¬ validIsbn isbn then .error (.validation "Invalid ISBN")
  else if s.books.any (fun bk => bk.isbn == isbn) then .error .duplicate
  else
    .ok (s.nextBook,
      { s with
          books := s.books ++ [⟨s.nextBook, title, author, genre, isbn, available⟩],
          nextBook := s.nextBook + 1 })

/-- Injected `sqlite3.Error`: `some c` when the statement with the given
index (in execution order inside the operation) raises with `str(e) = c`. -/
def failsAt (fail : Option (Nat × String)) (k : Nat) : Option String :=
  match fail with
  | some (i, c) => if i == k then some c else none
  | none => none

/-- The `except sqlite3.Error as e: raise ValidationError(f"DB error:  { e } ")`
wrapper shared by `borrow_book` and `return_book`. -/
def dbError (c : String) : LibError :=
  .storage ("DB error: " ++ c)

/-- Statement `UPDATE books SET available=available-1 WHERE book_id=?`. -/
def decAvail (books : List Book) (b : Nat) : List Book :=
  books.map (fun bk =>
    if bk.book_id == b then { bk with available := bk.available - 1 } else bk)

/-- Statement `UPDATE books SET available=available+1 WHERE book_id=?`. -/
def incAvail (books : List Book) (b : Nat) : List Book :=
  books.map (fun bk =>
    if bk.book_id == b then { bk with available := bk.available + 1 } else bk)

/-- Statement `UPDATE transactions SET return_date=?, fine=? WHERE tx_id=?`. -/
def closeTx (i : Nat) (today fine : Int) (t : Transaction) : Transaction :=
  if t.tx_id == i then { t with return_date := some today, fine := fine } else t

/-- Embedding of `LibraryDB.borrow_book` with an injected storage failure.  Statements in
order: 0 the `SELECT available`, 1 the `UPDATE books`, 2 the
`INSERT INTO transactions`.  An exception anywhere inside `with self.conn:`
rolls the whole operation back, so an error yields no state. -/
def borrow_bookF (s : LibState) (member_id book_id : Nat) (days now : Int)
    (fail : Option (Nat × String)) : Except LibError LibState :=
  match failsAt fail 0 with
  | some c => .error (dbError c)
  | none =>
    match findBook s book_id with
    | none => .error .unavailable
    | some bk =>
      if bk.available ≤ 0 then .error .unavailable
      else
        match failsAt fail 1 with
        | some c => .error (dbError c)
        | none =>
          match failsAt fail 2 with
          | some c => .error (dbError c)
          | none =>
            .ok { s with
                    books := decAvail s.books book_id,
                    transactions := s.transactions ++
                      [⟨s.nextTx, member_id, book_id, now, now + days, none, 0⟩],
                    nextTx := s.nextTx + 1 }

/-- Embedding of `LibraryDB.borrow_book` (no storage failure). -/
def borrow_book (s : LibState) (member_id book_id : Nat) (days now : Int) :
    Except LibError LibState :=
  borrow_bookF s member_id book_id days now none

/-- Embedding of `LibraryDB.return_book` with an injected storage failure.  Statements in
order: 0 the `SELECT`, 1 the `UPDATE transactions`, 2 the `UPDATE books`.
`overdue_days = max((today - due).days, 0)` is `max (today - due) 0` on day
ordinals. -/
def return_bookF (s : LibState) (tx_id : Nat) (fine_per_day today : Int)
    (fail : Option (Nat × String)) : Except LibError (Int × LibState) :=
  match failsAt fail 0 with
  | some c => .error (dbError c)
  | none =>
    match findTx s tx_id with
    | none => .error .invalidTransaction
    | some tx =>
      if tx.return_date.isSome then .error .invalidTransaction
      else
        let fine := max (today - tx.due_date) 0 * fine_per_day
        match failsAt fail 1 with
        | some c => .error (dbError c)
        | none =>
          match failsAt fail 2 with
          | some c => .error (dbError c)
          | none =>
            .ok (fine,
              { s with
                  transactions := s.transactions.map (closeTx tx_id today fine),
                  books := incAvail s.books tx.book_id })

/-- Embedding of `LibraryDB.return_book` (no storage failure). -/
def return_book (s : LibState) (tx_id : Nat) (fine_per_day today : Int) :
    Except LibError (Int × LibState) :=
  return_bookF s tx_id fine_per_day today none

/-- A ledger operation as invoked from the UI. -/
inductive LibOp where
  | borrow (member_id book_id : Nat) (days now : Int)
  | ret (tx_id : Nat) (fine_per_day today : Int)
  deriving DecidableEq, Repr

/-- The state after one ledger operation: the new state on success, the old
state when the operation raised (nothing was committed). -/
def execOp (s : LibState) : LibOp → LibState
  | .borrow m b d n =>
      match borrow_book s m b d n with
      | .ok s₂ => s₂
      | .error _ => s
  | .ret i f td =>
      match return_book s i f td with
      | .ok (_, s₂) => s₂
      | .error _ => s

/-- The state after a sequence of ledger operations. -/
def execOps (s : LibState) (ops : List LibOp) : LibState :=
  ops.foldl execOp s

/-- Number of OPEN transactions (`return_date IS NULL`) of a given book. -/
def countOpen (txs : List Transaction) (b : Nat) : Nat :=
  (txs.filter (fun t => t.book_id == b && t.return_date.isNone)).length

/-- Number of the book's OPEN transactions in a state. -/
def openCount (s : LibState) (b : Nat) : Nat :=
  countOpen s.transactions b

/-- Structural well-formedness maintained by the engine: transaction keys are
pairwise distinct and below the autoincrement counter, and every stored
`book_id` (in a transaction or a book row) is below the book counter. -/
def WF (s : LibState) : Prop :=
  s.transactions.Pairwise (fun t₁ t₂ => t₁.tx_id ≠ t₂.tx_id) ∧
  (∀ t ∈ s.transactions, t.tx_id < s.nextTx) ∧
  (∀ t ∈ s.transactions, t.book_id < s.nextBook) ∧
  (∀ bk ∈ s.books, bk.book_id < s.nextBook)

/-- The spec's per-book invariant: the book exists, its `available` plus its
open-loan count equals the registered copy count, and `available ≥ 0`. -/
def BookInv (s : LibState) (b : Nat) (copies : Int) : Prop :=
  ∃ a, availOf s b = some a ∧ a + (openCount s b : Int) = copies ∧ 0 ≤ a

/-- Embedding of `LibraryDB.active_loans`: open transactions inner-joined with `members`
and `books`, most recent (highest `tx_id`) first. -/
def active_loans (s : LibState) : List (Transaction × String × String) :=
  ((s.transactions.filter (fun t => t.return_date.isNone)).reverse).filterMap
    (fun t =>
      match s.members.find? (fun m => m.member_id == t.member_id),
            s.books.find? (fun bk => bk.book_id == t.book_id) with
      | some m, some bk => some (t, m.name, bk.title)
      | _, _ => none)

/-- Embedding of `LibraDeskApp._overdue_list`: rows of `active_loans` whose due date is
strictly before today, as `(member name, book title, days overdue)`. -/
def overdue_list (s : LibState) (today : Int) : List (String × String × Int) :=
  (active_loans s).filterMap (fun r =>
    if r.1.due_date < today then some (r.2.1, r.2.2, today - r.1.due_date)
    else none)

/-- State reached after an `add_book` call: the new state on success, the
old state when the call raised. -/
def execAdd (s : LibState) (title author genre isbn : String) (available : Int) : LibState :=
  match add_book s title author genre isbn available with
  | .ok (_, s₂) => s₂
  | .error _ => s

/-- State reached after `borrow_book` with an injected storage failure (an
error means the `with self.conn:` block rolled back). -/
def execBorrowF (s : LibState) (member_id book_id : Nat) (days now : Int)
    (fail : Option (Nat × String)) : LibState :=
  match borrow_bookF s member_id book_id days now fail with
  | .ok s₂ => s₂
  | .error _ => s

/-- State reached after `return_book` with an injected storage failure. -/
def execReturnF (s : LibState) (tx_id : Nat) (fine_per_day today : Int)
    (fail : Option (Nat × String)) : LibState :=
  match return_bookF s tx_id fine_per_day today fail with
  | .ok (_, s₂) => s₂
  | .error _ => s

/-- The empty database produced by `_init_schema` on a fresh file
(autoincrement counters start at 1). -/
def emptyState : LibState :=
  ⟨[], [], [], 1, 1⟩

/-- Helper: `find?` commutes with mapping a function that does not change
the predicate's verdict. -/
theorem find?_map_of_pred_eq {α : Type} (f : α → α) (p : α → Bool)
    (h : ∀ a, p (f a) = p a) (l : List α) :
    (l.map f).find? p = (l.find? p).map f := by
  rw [List.find?_map, show p ∘ f = p from funext h]

/-- Helper: looking a book up after `decAvail` finds the decremented row. -/
theorem find?_decAvail (books : List Book) (c b : Nat) :
    (decAvail books c).find? (fun x => x.book_id == b) =
      (books.find? (fun x => x.book_id == b)).map
        (fun bk => if bk.book_id == c then { bk with available := bk.available - 1 } else bk) := by
  unfold decAvail
  apply find?_map_of_pred_eq
  intro a
  cases h : a.book_id == c <;> simp [h]

/-- Helper: looking a book up after `incAvail` finds the incremented row. -/
theorem find?_incAvail (books : List Book) (c b : Nat) :
    (incAvail books c).find? (fun x => x.book_id == b) =
      (books.find? (fun x => x.book_id == b)).map
        (fun bk => if bk.book_id == c then { bk with available := bk.available + 1 } else bk) := by
  unfold incAvail
  apply find?_map_of_pred_eq
  intro a
  cases h : a.book_id == c <;> simp [h]

/-- Helper: looking a transaction up after the closing `UPDATE` finds the
updated row. -/
theorem find?_closeTx (txs : List Transaction) (i : Nat) (today fine : Int) (j : Nat) :
    (txs.map (closeTx i today fine)).find? (fun t => t.tx_id == j) =
      (txs.find? (fun t => t.tx_id == j)).map (closeTx i today fine) := by
  apply find?_map_of_pred_eq
  intro a
  unfold closeTx
  cases h : a.tx_id == i <;> simp [h]

/-- Helper: the success case of `borrow_book`, spelled out. -/
theorem borrow_book_ok (s : LibState) (m b : Nat) (days now : Int) (bk : Book)
    (hf : findBook s b = some bk) (hpos : 0 < bk.available) :
    borrow_book s m b days now =
      .ok { s with
              books := decAvail s.books b,
              transactions := s.transactions ++
                [⟨s.nextTx, m, b, now, now + days, none, 0⟩],
              nextTx := s.nextTx + 1 } := by
  simp [borrow_book, borrow_bookF, failsAt, hf, not_le.mpr hpos]

/-- Helper: the success case of `return_book`, spelled out. -/
theorem return_book_ok (s : LibState) (i : Nat) (F today : Int) (tx : Transaction)
    (hf : findTx s i = some tx) (hopen : tx.return_date = none) :
    return_book s i F today =
      .ok (max (today - tx.due_date) 0 * F,
        { s with
            transactions :=
              s.transactions.map (closeTx i today (max (today - tx.due_date) 0 * F)),
            books := incAvail s.books tx.book_id }) := by
  simp [return_book, return_bookF, failsAt, hf, hopen]

/-- Helper: an `availOf` witness yields the underlying book row. -/
theorem availOf_some (s : LibState) (b : Nat) (a : Int) (h : availOf s b = some a) :
    ∃ bk, findBook s b = some bk ∧ bk.available = a ∧ (bk.book_id == b) = true := by
  unfold availOf findBook at h
  cases hfb : s.books.find? (fun bk => bk.book_id == b) with
  | none => rw [hfb] at h; simp at h
  | some bk =>
      rw [hfb] at h
      simp at h
      exact ⟨bk, hfb, h, by simpa using List.find?_some hfb⟩

/-- C2: when the book does not exist or its `available` count is `≤ 0`,
`borrow_book` fails with the unavailable error and commits nothing — the
state after the operation is the original one, so the book's `available` is
unchanged and no transaction is created. -/
theorem C2_borrow_unavailable (s : LibState) (m b : Nat) (days now : Int)
    (h : availOf s b = none ∨ ∃ a, availOf s b = some a ∧ a ≤ 0) :
    borrow_book s m b days now = .error .unavailable ∧
      execOp s (.borrow m b days now) = s := by
  have herr : borrow_book s m b days now = .error .unavailable := by
    rcases h with h | ⟨a, ha, hle⟩
    · have hfb : findBook s b = none := by
        unfold availOf at h
        cases hfb : findBook s b with
        | none => rfl
        | some bk => rw [hfb] at h; simp at h
      simp [borrow_book, borrow_bookF, failsAt, hfb]
    · obtain ⟨bk, hfb, hava, _⟩ := availOf_some s b a ha
      simp [borrow_book, borrow_bookF, failsAt, hfb, hava.symm ▸ hle]
  exact ⟨herr, by simp [execOp, herr]⟩

/-- Witness for C2 at a concrete state: a book with `available = 0` and a
book id that does not exist. -/
theorem C2_borrow_unavailable_witness :
    (borrow_book ⟨[], [⟨1, "T", "A", "G", "1-2-3-X", 0⟩], [], 2, 1⟩ 1 1 7 0 =
        .error .unavailable ∧
      execOp ⟨[], [⟨1, "T", "A", "G", "1-2-3-X", 0⟩], [], 2, 1⟩ (.borrow 1 1 7 0) =
        ⟨[], [⟨1, "T", "A", "G", "1-2-3-X", 0⟩], [], 2, 1⟩) ∧
    borrow_book emptyState 1 5 7 0 = .error .unavailable :=
  ⟨C2_borrow_unavailable _ 1 1 7 0 (.inr ⟨0, rfl, by decide⟩),
   (C2_borrow_unavailable emptyState 1 5 7 0 (.inl rfl)).1⟩

/-- C3: a successful borrow (book present with `available ≥ 1`) decrements
that book's `available` by exactly one and appends exactly one new open
transaction with `fine = 0`, `borrow_date = now` and
`due_date = now + days`. -/
theorem C3_borrow_success (s : LibState) (m b : Nat) (days now : Int) (a : Int)
    (ha : availOf s b = some a) (hpos : 0 < a) :
    ∃ s₂, borrow_book s m b days now = .ok s₂ ∧
      availOf s₂ b = some (a - 1) ∧
      s₂.transactions = s.transactions ++ [⟨s.nextTx, m, b, now, now + days, none, 0⟩] := by
  obtain ⟨bk, hfb, hava, hid⟩ := availOf_some s b a ha
  refine ⟨_, borrow_book_ok s m b days now bk hfb (hava ▸ hpos), ?_, rfl⟩
  unfold availOf findBook
  show ((decAvail s.books b).find? (fun x => x.book_id == b)).map (fun x => x.available) = _
  rw [find?_decAvail]
  unfold findBook at hfb
  rw [hfb]
  have hbb : bk.book_id = b := by simpa using hid
  simp [hbb, hava]

/-- Witness for C3 at a concrete state (two copies available). -/
theorem C3_borrow_success_witness :
    ∃ s₂, borrow_book ⟨[⟨1, "Alice", "a@b.c"⟩], [⟨1, "T", "A", "G", "1-2-3-X", 2⟩], [], 2, 1⟩
        1 1 7 100 = .ok s₂ ∧
      availOf s₂ 1 = some (2 - 1) ∧
      s₂.transactions = [] ++ [⟨1, 1, 1, 100, 100 + 7, none, 0⟩] :=
  C3_borrow_success _ 1 1 7 100 2 rfl (by decide)

/-- C10: `borrow_book` never consults the `members` table — for an arbitrary
`member_id`, in particular one absent from `members`, borrowing an existing
book with positive `available` succeeds and records a transaction carrying
exactly that `member_id`. -/
theorem C10_borrow_ignores_member (s : LibState) (m b : Nat) (days now : Int) (a : Int)
    (ha : availOf s b = some a) (hpos : 0 < a) :
    ∃ s₂, borrow_book s m b days now = .ok s₂ ∧
      s₂.transactions = s.transactions ++ [⟨s.nextTx, m, b, now, now + days, none, 0⟩] ∧
      s₂.members = s.members := by
  obtain ⟨bk, hfb, hava, _⟩ := availOf_some s b a ha
  exact ⟨_, borrow_book_ok s m b days now bk hfb (hava ▸ hpos), rfl, rfl⟩

/-- Witness for C10: the `members` table is empty, yet borrowing for member
42 succeeds and records member 42. -/
theorem C10_borrow_ignores_member_witness :
    ∃ s₂, borrow_book ⟨[], [⟨1, "T", "A", "G", "1-2-3-X", 1⟩], [], 2, 1⟩ 42 1 7 0 = .ok s₂ ∧
      s₂.transactions = [] ++ [⟨1, 42, 1, 0, 0 + 7, none, 0⟩] ∧
      s₂.members = [] :=
  C10_borrow_ignores_member _ 42 1 7 0 1 rfl (by decide)

/-- C7: adding a book whose (well-formed) ISBN already occurs in `books`
fails with the duplicate error produced by the `UNIQUE(isbn)` constraint and
inserts no row. -/
theorem C7_duplicate_isbn (s : LibState) (title author genre isbn : String)
    (available : Int) (hvalid : validIsbn isbn = true)
    (hdup : ∃ bk ∈ s.books, bk.isbn = isbn) :
    add_book s title author genre isbn available = .error .duplicate ∧
      execAdd s title author genre isbn available = s := by
  have hany : s.books.any (fun bk => bk.isbn == isbn) = true := by
    obtain ⟨bk, hbk, hi⟩ := hdup
    exact List.any_eq_true.mpr ⟨bk, hbk, by simp [hi]⟩
  have herr : add_book s title author genre isbn available = .error .duplicate := by
    simp [add_book, hvalid, hany]
  exact ⟨herr, by simp [execAdd, herr]⟩

/-- Witness for C7: re-adding ISBN 9781593276034 next to an existing row
with that ISBN. -/
theorem C7_duplicate_isbn_witness :
    add_book ⟨[], [⟨1, "T", "A", "G", "9781593276034", 3⟩], [], 2, 1⟩
        "T2" "A2" "G2" "9781593276034" 1 = .error .duplicate ∧
      execAdd ⟨[], [⟨1, "T", "A", "G", "9781593276034", 3⟩], [], 2, 1⟩
        "T2" "A2" "G2" "9781593276034" 1 =
        ⟨[], [⟨1, "T", "A", "G", "9781593276034", 3⟩], [], 2, 1⟩ :=
  C7_duplicate_isbn _ "T2" "A2" "G2" "9781593276034" 1 (by decide)
    ⟨⟨1, "T", "A", "G", "9781593276034", 3⟩, by simp, rfl⟩

/-- C8: `add_book` rejects the ISBN "123" with the ISBN validation error in
every state, while the 13-digit ISBN 9781593276034 passes `_validate_isbn`
and is accepted (shown on the fresh database). -/
theorem C8_isbn_validation :
    (∀ (s : LibState) (title author genre : String) (available : Int),
      add_book s title author genre "123" available =
        .error (.validation "Invalid ISBN")) ∧
    validIsbn "9781593276034" = true ∧
    add_book emptyState "Python Crash Course" "Eric Matthes" "Programming"
        "9781593276034" 3 =
      .ok (1, ⟨[], [⟨1, "Python Crash Course", "Eric Matthes", "Programming",
        "9781593276034", 3⟩], [], 2, 1⟩) := by
  refine ⟨fun s title author genre available => ?_, by decide, by rfl⟩
  simp [add_book, show validIsbn "123" = false from by decide]

/-- C4: returning an open transaction computes
`fine = max(days overdue, 0) * fine_per_day`: when the due date is `N > 0`
days in the past the returned and stored fine is `N * F`, when the due date
is today or later it is `0`; in both cases the transaction is closed with
`return_date = today` and the book's `available` is incremented by one. -/
theorem C4_return_fine (s : LibState) (i : Nat) (F today N : Int)
    (tx : Transaction) (bk : Book)
    (hf : findTx s i = some tx) (hopen : tx.return_date = none)
    (hbk : findBook s tx.book_id = some bk) :
    (0 < N → today = tx.due_date + N →
      ∃ s₂, return_book s i F today = .ok (N * F, s₂) ∧
        (∃ tx₂, findTx s₂ i = some tx₂ ∧ tx₂.return_date = some today ∧
          tx₂.fine = N * F) ∧
        availOf s₂ tx.book_id = some (bk.available + 1)) ∧
    (today ≤ tx.due_date →
      ∃ s₂, return_book s i F today = .ok (0, s₂) ∧
        (∃ tx₂, findTx s₂ i = some tx₂ ∧ tx₂.return_date = some today ∧
          tx₂.fine = 0) ∧
        availOf s₂ tx.book_id = some (bk.available + 1)) := by
  have hf' : s.transactions.find? (fun t => t.tx_id == i) = some tx := hf
  have hid : (tx.tx_id == i) = true := by simpa using List.find?_some hf'
  have hbk' : s.books.find? (fun x => x.book_id == tx.book_id) = some bk := hbk
  have hbid : bk.book_id = tx.book_id := by simpa using List.find?_some hbk'
  have key : ∃ s₂, return_book s i F today = .ok (max (today - tx.due_date) 0 * F, s₂) ∧
      (∃ tx₂, findTx s₂ i = some tx₂ ∧ tx₂.return_date = some today ∧
        tx₂.fine = max (today - tx.due_date) 0 * F) ∧
      availOf s₂ tx.book_id = some (bk.available + 1) := by
    refine ⟨_, return_book_ok s i F today tx hf hopen, ?_, ?_⟩
    · refine ⟨closeTx i today (max (today - tx.due_date) 0 * F) tx, ?_, ?_, ?_⟩
      · simp only [findTx]
        rw [find?_closeTx, hf']
        rfl
      · simp [closeTx, hid]
      · simp [closeTx, hid]
    · simp only [availOf, findBook]
      rw [find?_incAvail, hbk']
      simp [hbid]
  constructor
  · intro hN htoday
    have hd : today - tx.due_date = N := by omega
    rw [hd, max_eq_left hN.le] at key
    exact key
  · intro hle
    rw [max_eq_right (by omega : today - tx.due_date ≤ 0), zero_mul] at key
    exact key

/-- Witness for C4 at a concrete state: transaction 1 on book 1
(`available = 2`, due day 10) returned on day 13 (three days late,
`fine = 3 * 5`) and, separately, on day 9 (before due, `fine = 0`). -/
theorem C4_return_fine_witness :
    (∃ s₂, return_book ⟨[], [⟨1, "T", "A", "G", "1-2-3-X", 2⟩],
        [⟨1, 9, 1, 0, 10, none, 0⟩], 2, 2⟩ 1 5 13 = .ok (3 * 5, s₂) ∧
      (∃ tx₂, findTx s₂ 1 = some tx₂ ∧ tx₂.return_date = some 13 ∧
        tx₂.fine = 3 * 5) ∧
      availOf s₂ 1 = some (2 + 1)) ∧
    (∃ s₂, return_book ⟨[], [⟨1, "T", "A", "G", "1-2-3-X", 2⟩],
        [⟨1, 9, 1, 0, 10, none, 0⟩], 2, 2⟩ 1 5 9 = .ok (0, s₂) ∧
      (∃ tx₂, findTx s₂ 1 = some tx₂ ∧ tx₂.return_date = some 9 ∧
        tx₂.fine = 0) ∧
      availOf s₂ 1 = some (2 + 1)) :=
  ⟨(C4_return_fine ⟨[], [⟨1, "T", "A", "G", "1-2-3-X", 2⟩], [⟨1, 9, 1, 0, 10, none, 0⟩], 2, 2⟩
      1 5 13 3 ⟨1, 9, 1, 0, 10, none, 0⟩ ⟨1, "T", "A", "G", "1-2-3-X", 2⟩
      rfl rfl rfl).1 (by decide) (by decide),
   (C4_return_fine ⟨[], [⟨1, "T", "A", "G", "1-2-3-X", 2⟩], [⟨1, 9, 1, 0, 10, none, 0⟩], 2, 2⟩
      1 5 9 3 ⟨1, 9, 1, 0, 10, none, 0⟩ ⟨1, "T", "A", "G", "1-2-3-X", 2⟩
      rfl rfl rfl).2 (by decide)⟩

/-- C5: returning an unknown transaction id or an already-closed transaction
fails with the invalid-transaction error and changes nothing; in particular
after a successful return, a second return of the same id fails and leaves
the state (fine and availability included) untouched. -/
theorem C5_return_invalid (s : LibState) (i : Nat) (F today F₂ today₂ : Int) :
    ((findTx s i = none ∨ ∃ tx r, findTx s i = some tx ∧ tx.return_date = some r) →
      return_book s i F today = .error .invalidTransaction ∧
        execOp s (.ret i F today) = s) ∧
    (∀ f s₂, return_book s i F today = .ok (f, s₂) →
      return_book s₂ i F₂ today₂ = .error .invalidTransaction ∧
        execOp s₂ (.ret i F₂ today₂) = s₂) := by
  constructor
  · rintro (h | ⟨tx, r, hf, hr⟩)
    · have herr : return_book s i F today = .error .invalidTransaction := by
        simp [return_book, return_bookF, failsAt, h]
      exact ⟨herr, by simp [execOp, herr]⟩
    · have herr : return_book s i F today = .error .invalidTransaction := by
        simp [return_book, return_bookF, failsAt, hf, hr]
      exact ⟨herr, by simp [execOp, herr]⟩
  · intro f s₂ hok
    cases hf : findTx s i with
    | none => simp [return_book, return_bookF, failsAt, hf] at hok
    | some tx =>
      cases hr : tx.return_date with
      | some r => simp [return_book, return_bookF, failsAt, hf, hr] at hok
      | none =>
        rw [return_book_ok s i F today tx hf hr] at hok
        injection hok with hok
        cases hok
        have hf' : s.transactions.find? (fun t => t.tx_id == i) = some tx := hf
        have hid : (tx.tx_id == i) = true := by simpa using List.find?_some hf'
        have hfind2 : findTx
            { s with
                transactions := s.transactions.map
                  (closeTx i today (max (today - tx.due_date) 0 * F)),
                books := incAvail s.books tx.book_id } i =
            some (closeTx i today (max (today - tx.due_date) 0 * F) tx) := by
          simp only [findTx]
          rw [find?_closeTx, hf']
          rfl
        have hclosed : (closeTx i today (max (today - tx.due_date) 0 * F) tx).return_date =
            some today := by
          simp [closeTx, hid]
        have herr : return_book
            { s with
                transactions := s.transactions.map
                  (closeTx i today (max (today - tx.due_date) 0 * F)),
                books := incAvail s.books tx.book_id } i F₂ today₂ =
            .error .invalidTransaction := by
          simp [return_book, return_bookF, failsAt, hfind2, hclosed]
        exact ⟨herr, by simp [execOp, herr]⟩

/-- Witness for C5: an empty ledger rejects tx 1; after the successful
return of tx 1 on day 13 in a concrete state, a second return of tx 1
fails and changes nothing. -/
theorem C5_return_invalid_witness :
    (return_book emptyState 1 5 0 = .error .invalidTransaction ∧
      execOp emptyState (.ret 1 5 0) = emptyState) ∧
    (return_book ⟨[], [⟨1, "T", "A", "G", "1-2-3-X", 3⟩],
        [⟨1, 9, 1, 0, 10, some 13, 15⟩], 2, 2⟩ 1 7 20 =
        .error .invalidTransaction ∧
      execOp ⟨[], [⟨1, "T", "A", "G", "1-2-3-X", 3⟩],
        [⟨1, 9, 1, 0, 10, some 13, 15⟩], 2, 2⟩ (.ret 1 7 20) =
        ⟨[], [⟨1, "T", "A", "G", "1-2-3-X", 3⟩],
          [⟨1, 9, 1, 0, 10, some 13, 15⟩], 2, 2⟩) :=
  ⟨(C5_return_invalid emptyState 1 5 0 5 0).1 (.inl rfl),
   (C5_return_invalid ⟨[], [⟨1, "T", "A", "G", "1-2-3-X", 2⟩],
      [⟨1, 9, 1, 0, 10, none, 0⟩], 2, 2⟩ 1 5 13 7 20).2 15
      ⟨[], [⟨1, "T", "A", "G", "1-2-3-X", 3⟩], [⟨1, 9, 1, 0, 10, some 13, 15⟩], 2, 2⟩ rfl⟩

/-- C6: a storage failure injected at any statement of `borrow_book` or
`return_book` either surfaces as the storage error wrapping the original
cause with the state rolled back to the pre-call state, or does not fire
(the statement is never reached) and the run coincides with the failure-free
one.  No other outcome — in particular no partially written state — is
possible. -/
theorem C6_storage_rollback (s : LibState) (m b i : Nat) (days now F today : Int)
    (k : Nat) (c : String) :
    ((borrow_bookF s m b days now (some (k, c)) = .error (dbError c) ∧
        execBorrowF s m b days now (some (k, c)) = s) ∨
      borrow_bookF s m b days now (some (k, c)) = borrow_book s m b days now) ∧
    ((return_bookF s i F today (some (k, c)) = .error (dbError c) ∧
        execReturnF s i F today (some (k, c)) = s) ∨
      return_bookF s i F today (some (k, c)) = return_book s i F today) := by
  constructor
  · by_cases h0 : k = 0
    · subst h0
      exact .inl ⟨by simp [borrow_bookF, failsAt],
        by simp [execBorrowF, borrow_bookF, failsAt]⟩
    · cases hfb : findBook s b with
      | none => exact .inr (by simp [borrow_bookF, borrow_book, failsAt, h0, hfb])
      | some bk =>
        by_cases hav : bk.available ≤ 0
        · exact .inr (by simp [borrow_bookF, borrow_book, failsAt, h0, hfb, hav])
        · by_cases h1 : k = 1
          · subst h1
            exact .inl ⟨by simp [borrow_bookF, failsAt, hfb, hav],
              by simp [execBorrowF, borrow_bookF, failsAt, hfb, hav]⟩
          · by_cases h2 : k = 2
            · subst h2
              exact .inl ⟨by simp [borrow_bookF, failsAt, hfb, hav],
                by simp [execBorrowF, borrow_bookF, failsAt, hfb, hav]⟩
            · exact .inr (by
                simp [borrow_bookF, borrow_book, failsAt, h0, h1, h2, hfb, hav])
  · by_cases h0 : k = 0
    · subst h0
      exact .inl ⟨by simp [return_bookF, failsAt],
        by simp [execReturnF, return_bookF, failsAt]⟩
    · cases hf : findTx s i with
      | none => exact .inr (by simp [return_bookF, return_book, failsAt, h0, hf])
      | some tx =>
        cases hr : tx.return_date with
        | some r =>
            exact .inr (by simp [return_bookF, return_book, failsAt, h0, hf, hr])
        | none =>
          by_cases h1 : k = 1
          · subst h1
            exact .inl ⟨by simp [return_bookF, failsAt, hf, hr],
              by simp [execReturnF, return_bookF, failsAt, hf, hr]⟩
          · by_cases h2 : k = 2
            · subst h2
              exact .inl ⟨by simp [return_bookF, failsAt, hf, hr],
                by simp [execReturnF, return_bookF, failsAt, hf, hr]⟩
            · exact .inr (by
                simp [return_bookF, return_book, failsAt, h0, h1, h2, hf, hr])

/-- Helper: `countOpen` is additive over append. -/
theorem countOpen_append (l₁ l₂ : List Transaction) (b : Nat) :
    countOpen (l₁ ++ l₂) b = countOpen l₁ b + countOpen l₂ b := by
  simp [countOpen, List.filter_append]

/-- Helper: `closeTx` never changes a transaction's key. -/
theorem closeTx_tx_id (i : Nat) (today fine : Int) (t : Transaction) :
    (closeTx i today fine t).tx_id = t.tx_id := by
  unfold closeTx
  split <;> rfl

/-- Helper: `closeTx` never changes a transaction's book. -/
theorem closeTx_book_id (i : Nat) (today fine : Int) (t : Transaction) :
    (closeTx i today fine t).book_id = t.book_id := by
  unfold closeTx
  split <;> rfl

/-- Helper: closing the open transaction found for key `i` lowers the open
count of its book by one and keeps every other book's count (stated
additively; needs pairwise-distinct keys so that only one row is updated). -/
theorem countOpen_closeTx (txs : List Transaction) (i : Nat) (today fine : Int) (b : Nat)
    (hp : txs.Pairwise (fun t₁ t₂ => t₁.tx_id ≠ t₂.tx_id))
    (tx : Transaction) (hfind : txs.find? (fun t => t.tx_id == i) = some tx)
    (hopen : tx.return_date = none) :
    countOpen (txs.map (closeTx i today fine)) b +
        (if tx.book_id == b then 1 else 0) = countOpen txs b := by
  induction txs with
  | nil => simp at hfind
  | cons h t ih =>
    rw [List.pairwise_cons] at hp
    obtain ⟨hh, hpt⟩ := hp
    by_cases hid : (h.tx_id == i) = true
    · rw [@List.find?_cons_of_pos _ (fun t => t.tx_id == i) h t hid] at hfind
      obtain rfl : h = tx := by injection hfind
      have htail : t.map (closeTx i today fine) = t := by
        have hcl : ∀ x ∈ t, closeTx i today fine x = id x := by
          intro x hx
          have hne : x.tx_id ≠ i := by
            have h₁ := hh x hx
            have h₂ : h.tx_id = i := by simpa using hid
            omega
          simp [closeTx, hne]
        rw [List.map_congr_left hcl, List.map_id]
      rw [List.map_cons, htail]
      have hcl_h : closeTx i today fine h =
          { h with return_date := some today, fine := fine } := by
        simp [closeTx, hid]
      rw [hcl_h]
      by_cases hb : (h.book_id == b) = true <;>
        simp [countOpen, List.filter_cons, hopen, hb]
    · rw [@List.find?_cons_of_neg _ (fun t => t.tx_id == i) h t hid] at hfind
      have ihh := ih hpt hfind
      have hcl_h : closeTx i today fine h = h := by simp [closeTx, hid]
      rw [List.map_cons, hcl_h]
      simp only [countOpen, List.filter_cons] at ihh ⊢
      by_cases hb : (h.book_id == b && h.return_date.isNone) = true <;>
        by_cases htb : (tx.book_id == b) = true <;>
        simp [hb, htb] at ihh ⊢ <;> omega

/-- Helper: inversion of a successful `borrow_book`. -/
theorem borrow_book_ok_inv (s : LibState) (m c : Nat) (days now : Int) (s₂ : LibState)
    (h : borrow_book s m c days now = .ok s₂) :
    ∃ bk, findBook s c = some bk ∧ 0 < bk.available ∧
      s₂ = { s with
              books := decAvail s.books c,
              transactions := s.transactions ++
                [⟨s.nextTx, m, c, now, now + days, none, 0⟩],
              nextTx := s.nextTx + 1 } := by
  cases hfb : findBook s c with
  | none => simp [borrow_book, borrow_bookF, failsAt, hfb] at h
  | some bk =>
    by_cases hav : bk.available ≤ 0
    · simp [borrow_book, borrow_bookF, failsAt, hfb, hav] at h
    · rw [borrow_book_ok s m c days now bk hfb (by omega)] at h
      injection h with h
      exact ⟨bk, rfl, by omega, h.symm⟩

/-- Helper: inversion of a successful `return_book`. -/
theorem return_book_ok_inv (s : LibState) (i : Nat) (F today f : Int) (s₂ : LibState)
    (h : return_book s i F today = .ok (f, s₂)) :
    ∃ tx, findTx s i = some tx ∧ tx.return_date = none ∧
      s₂ = { s with
              transactions := s.transactions.map
                (closeTx i today (max (today - tx.due_date) 0 * F)),
              books := incAvail s.books tx.book_id } := by
  cases hf : findTx s i with
  | none => simp [return_book, return_bookF, failsAt, hf] at h
  | some tx =>
    cases hr : tx.return_date with
    | some r => simp [return_book, return_bookF, failsAt, hf, hr] at h
    | none =>
      rw [return_book_ok s i F today tx hf hr] at h
      injection h with h
      rw [Prod.mk.injEq] at h
      exact ⟨tx, rfl, hr, h.2.symm⟩

/-- Helper: one borrow or return operation preserves well-formedness and the
per-book availability invariant. -/
theorem inv_execOp (s : LibState) (b : Nat) (copies : Int) (op : LibOp)
    (hWF : WF s) (hInv : BookInv s b copies) :
    WF (execOp s op) ∧ BookInv (execOp s op) b copies := by
  obtain ⟨hpw, htx, htbk, hbb⟩ := hWF
  obtain ⟨a, ha, hsum, ha0⟩ := hInv
  cases op with
  | borrow m c days now =>
    cases hres : borrow_book s m c days now with
    | error e =>
        rw [show execOp s (.borrow m c days now) = s by simp [execOp, hres]]
        exact ⟨⟨hpw, htx, htbk, hbb⟩, ⟨a, ha, hsum, ha0⟩⟩
    | ok s₂ =>
      rw [show execOp s (.borrow m c days now) = s₂ by simp [execOp, hres]]
      obtain ⟨bk, hfb, hpos, rfl⟩ := borrow_book_ok_inv s m c days now s₂ hres
      have hbkc : bk.book_id = c := by
        simpa using List.find?_some (hfb : s.books.find? (fun x => x.book_id == c) = some bk)
      have hcbound : c < s.nextBook := hbkc ▸ hbb bk (List.mem_of_find?_eq_some hfb)
      constructor
      · refine ⟨?_, ?_, ?_, ?_⟩
        · rw [List.pairwise_append]
          refine ⟨hpw, by simp, ?_⟩
          intro t₁ ht₁ t₂ ht₂
          rw [List.mem_singleton] at ht₂
          subst ht₂
          have := htx t₁ ht₁
          show t₁.tx_id ≠ s.nextTx
          omega
        · intro t ht
          show t.tx_id < s.nextTx + 1
          rcases List.mem_append.mp ht with h | h
          · have := htx t h; omega
          · rw [List.mem_singleton] at h; subst h; show s.nextTx < s.nextTx + 1; omega
        · intro t ht
          show t.book_id < s.nextBook
          rcases List.mem_append.mp ht with h | h
          · exact htbk t h
          · rw [List.mem_singleton] at h; subst h; exact hcbound
        · intro x hx
          obtain ⟨y, hy, rfl⟩ := List.mem_map.mp hx
          show (if y.book_id == c then { y with available := y.available - 1 } else y).book_id
              < s.nextBook
          have := hbb y hy
          cases hyc : y.book_id == c <;> simp [hyc] <;> exact this
      · obtain ⟨bk₀, hfb₀, hav₀, hid₀⟩ := availOf_some s b a ha
        have hb₀ : bk₀.book_id = b := by simpa using hid₀
        by_cases hcb : c = b
        · subst hcb
          have hbk₀ : bk₀ = bk := by
            rw [hfb] at hfb₀
            injection hfb₀.symm
          subst hbk₀
          refine ⟨a - 1, ?_, ?_, by omega⟩
          · show ((decAvail s.books c).find? (fun x => x.book_id == c)).map
                (fun x => x.available) = some (a - 1)
            rw [find?_decAvail, show s.books.find? (fun x => x.book_id == c) = some bk₀
              from hfb]
            simp [hb₀, hav₀]
          · show a - 1 + (countOpen (s.transactions ++
                [⟨s.nextTx, m, c, now, now + days, none, 0⟩]) c : Int) = copies
            rw [countOpen_append]
            have h1 : countOpen [(⟨s.nextTx, m, c, now, now + days, none, 0⟩ : Transaction)]
                c = 1 := by
              simp [countOpen]
            rw [h1]
            have hsum' : a + (countOpen s.transactions c : Int) = copies := hsum
            push_cast
            push_cast at hsum'
            omega
        · refine ⟨a, ?_, ?_, ha0⟩
          · show ((decAvail s.books c).find? (fun x => x.book_id == b)).map
                (fun x => x.available) = some a
            rw [find?_decAvail, show s.books.find? (fun x => x.book_id == b) = some bk₀
              from hfb₀]
            have : bk₀.book_id ≠ c := by rw [hb₀]; exact fun h => hcb h.symm
            simp [this, hav₀]
          · show a + (countOpen (s.transactions ++
                [⟨s.nextTx, m, c, now, now + days, none, 0⟩]) b : Int) = copies
            rw [countOpen_append]
            have h1 : countOpen [(⟨s.nextTx, m, c, now, now + days, none, 0⟩ : Transaction)]
                b = 0 := by
              simp [countOpen, hcb]
            rw [h1]
            simpa using hsum
  | ret i F td =>
    cases hres : return_book s i F td with
    | error e =>
        rw [show execOp s (.ret i F td) = s by simp [execOp, hres]]
        exact ⟨⟨hpw, htx, htbk, hbb⟩, ⟨a, ha, hsum, ha0⟩⟩
    | ok p =>
      obtain ⟨f, s₂⟩ := p
      rw [show execOp s (.ret i F td) = s₂ by simp [execOp, hres]]
      obtain ⟨tx, hf, hr, rfl⟩ := return_book_ok_inv s i F td f s₂ hres
      have hf' : s.transactions.find? (fun t => t.tx_id == i) = some tx := hf
      have htxmem : tx ∈ s.transactions := List.mem_of_find?_eq_some hf'
      constructor
      · refine ⟨?_, ?_, ?_, ?_⟩
        · exact List.Pairwise.map _ (fun a₁ a₂ h => by
            rw [closeTx_tx_id, closeTx_tx_id]; exact h) hpw
        · intro t ht
          obtain ⟨y, hy, rfl⟩ := List.mem_map.mp ht
          show (closeTx i td (max (td - tx.due_date) 0 * F) y).tx_id < s.nextTx
          rw [closeTx_tx_id]
          exact htx y hy
        · intro t ht
          obtain ⟨y, hy, rfl⟩ := List.mem_map.mp ht
          show (closeTx i td (max (td - tx.due_date) 0 * F) y).book_id < s.nextBook
          rw [closeTx_book_id]
          exact htbk y hy
        · intro x hx
          obtain ⟨y, hy, rfl⟩ := List.mem_map.mp hx
          show (if y.book_id == tx.book_id then { y with available := y.available + 1 }
              else y).book_id < s.nextBook
          have := hbb y hy
          cases hyc : y.book_id == tx.book_id <;> simp [hyc] <;> exact this
      · obtain ⟨bk₀, hfb₀, hav₀, hid₀⟩ := availOf_some s b a ha
        have hb₀ : bk₀.book_id = b := by simpa using hid₀
        have hcnt := countOpen_closeTx s.transactions i td (max (td - tx.due_date) 0 * F)
          b hpw tx hf' hr
        by_cases hcb : tx.book_id = b
        · refine ⟨a + 1, ?_, ?_, by omega⟩
          · show ((incAvail s.books tx.book_id).find? (fun x => x.book_id == b)).map
                (fun x => x.available) = some (a + 1)
            rw [find?_incAvail, show s.books.find? (fun x => x.book_id == b) = some bk₀
              from hfb₀]
            simp [hb₀, hcb, hav₀]
          · show a + 1 + (countOpen (s.transactions.map
                (closeTx i td (max (td - tx.due_date) 0 * F))) b : Int) = copies
            rw [if_pos (by simp [hcb] : (tx.book_id == b) = true)] at hcnt
            have hsum' : a + (countOpen s.transactions b : Int) = copies := hsum
            push_cast at hsum' ⊢
            omega
        · refine ⟨a, ?_, ?_, ha0⟩
          · show ((incAvail s.books tx.book_id).find? (fun x => x.book_id == b)).map
                (fun x => x.available) = some a
            rw [find?_incAvail, show s.books.find? (fun x => x.book_id == b) = some bk₀
              from hfb₀]
            have : bk₀.book_id ≠ tx.book_id := by rw [hb₀]; exact fun h => hcb h.symm
            simp [this, hav₀]
          · show a + (countOpen (s.transactions.map
                (closeTx i td (max (td - tx.due_date) 0 * F))) b : Int) = copies
            rw [if_neg (by simp [hcb] : ¬ (tx.book_id == b) = true)] at hcnt
            rw [Nat.add_zero] at hcnt
            rw [hcnt]
            exact hsum

/-- Helper: the invariant is preserved by any sequence of ledger
operations. -/
theorem inv_execOps (ops : List LibOp) (s : LibState) (b : Nat) (copies : Int)
    (hWF : WF s) (hInv : BookInv s b copies) :
    WF (execOps s ops) ∧ BookInv (execOps s ops) b copies := by
  induction ops generalizing s with
  | nil => exact ⟨hWF, hInv⟩
  | cons op ops ih =>
      obtain ⟨h1, h2⟩ := inv_execOp s b copies op hWF hInv
      exact ih (execOp s op) h1 h2

/-- C1: for a freshly added book with `copies` registered copies, after any
sequence of borrow/return operations the book's `available` plus the number
of its transactions with null `return_date` equals `copies`, and
`available ≥ 0`. -/
theorem C1_availability_invariant (s : LibState) (title author genre isbn : String)
    (copies : Int) (bid : Nat) (s₂ : LibState) (ops : List LibOp)
    (hWF : WF s) (hcopies : 0 ≤ copies)
    (hadd : add_book s title author genre isbn copies = .ok (bid, s₂)) :
    BookInv (execOps s₂ ops) bid copies := by
  obtain ⟨hpw, htx, htbk, hbb⟩ := hWF
  obtain ⟨hbid, hs₂⟩ : bid = s.nextBook ∧ s₂ =
      { s with
          books := s.books ++ [⟨s.nextBook, title, author, genre, isbn, copies⟩],
          nextBook := s.nextBook + 1 } := by
    by_cases hv : validIsbn isbn = true
    · by_cases hdup : s.books.any (fun bk => bk.isbn == isbn) = true
      · simp [add_book, hv, hdup] at hadd
      · simp [add_book, hv, hdup] at hadd
        exact ⟨hadd.1.symm, hadd.2.symm⟩
    · simp [add_book, hv] at hadd
  subst hbid
  subst hs₂
  have hWF₂ : WF { s with
      books := s.books ++ [⟨s.nextBook, title, author, genre, isbn, copies⟩],
      nextBook := s.nextBook + 1 } := by
    refine ⟨hpw, htx, ?_, ?_⟩
    · intro t ht
      show t.book_id < s.nextBook + 1
      have := htbk t ht
      omega
    · intro bk hbk
      show bk.book_id < s.nextBook + 1
      rcases List.mem_append.mp hbk with h | h
      · have := hbb bk h; omega
      · rw [List.mem_singleton] at h; subst h; show s.nextBook < s.nextBook + 1; omega
  have hInv₂ : BookInv { s with
      books := s.books ++ [⟨s.nextBook, title, author, genre, isbn, copies⟩],
      nextBook := s.nextBook + 1 } s.nextBook copies := by
    refine ⟨copies, ?_, ?_, hcopies⟩
    · show ((s.books ++ [(⟨s.nextBook, title, author, genre, isbn, copies⟩ : Book)]).find?
          (fun x => x.book_id == s.nextBook)).map (fun x => x.available) = some copies
      rw [List.find?_append]
      have h1 : s.books.find? (fun x => x.book_id == s.nextBook) = none := by
        rw [List.find?_eq_none]
        intro x hx
        have := hbb x hx
        simp
        omega
      rw [h1]
      simp [List.find?_cons]
    · show copies + (countOpen s.transactions s.nextBook : Int) = copies
      have h0 : countOpen s.transactions s.nextBook = 0 := by
        unfold countOpen
        rw [List.length_eq_zero, List.filter_eq_nil_iff]
        intro t ht
        have := htbk t ht
        simp
        omega
      rw [h0]
      simp
  exact (inv_execOps ops _ s.nextBook copies hWF₂ hInv₂).2

/-- Witness for C1: add a book with two copies to the empty database, then
borrow, return (late), borrow again. -/
theorem C1_availability_invariant_witness :
    BookInv (execOps ⟨[], [⟨1, "T", "A", "G", "9781593276034", 2⟩], [], 2, 1⟩
      [.borrow 1 1 7 0, .ret 1 5 13, .borrow 2 1 7 20]) 1 2 :=
  C1_availability_invariant emptyState "T" "A" "G" "9781593276034" 2 1
    ⟨[], [⟨1, "T", "A", "G", "9781593276034", 2⟩], [], 2, 1⟩
    [.borrow 1 1 7 0, .ret 1 5 13, .borrow 2 1 7 20]
    (by simp [WF, emptyState]) (by decide) rfl

/-- C9 as stated is false on the code: borrowing for a member id that is not
in `members` (which `borrow_book` allows) yields an OPEN loan that is three
days overdue on day 3, yet `_overdue_list` reports nothing, because
`active_loans` inner-joins `members` and drops the row.  The state below is
reached from a one-book catalog by the public `borrow_book` API. -/
theorem C9_overdue_counterexample :
    (∃ t ∈ (execOp ⟨[], [⟨1, "T", "A", "G", "1-2-3-X", 1⟩], [], 2, 1⟩
        (.borrow 42 1 0 0)).transactions, t.return_date = none ∧ t.due_date < 3) ∧
      overdue_list (execOp ⟨[], [⟨1, "T", "A", "G", "1-2-3-X", 1⟩], [], 2, 1⟩
        (.borrow 42 1 0 0)) 3 = [] := by
  exact ⟨by decide, rfl⟩

/-- C9 amended: the overdue report contains exactly the open loans whose
member and book rows exist in the catalog and whose due date is strictly
before today, each listed with `days_overdue = today - due_date` (so a loan
due three days ago is listed with three days overdue, and a loan due
tomorrow is excluded). -/
theorem C9_overdue_report (s : LibState) (today : Int) (mn bt : String) (d : Int) :
    (mn, bt, d) ∈ overdue_list s today ↔
      ∃ t ∈ s.transactions, t.return_date = none ∧ t.due_date < today ∧
        d = today - t.due_date ∧
        (∃ m, s.members.find? (fun x => x.member_id == t.member_id) = some m ∧
          m.name = mn) ∧
        (∃ bk, s.books.find? (fun x => x.book_id == t.book_id) = some bk ∧
          bk.title = bt) := by
  unfold overdue_list active_loans
  rw [List.mem_filterMap]
  constructor
  · rintro ⟨r, hr, hg⟩
    rw [List.mem_filterMap] at hr
    obtain ⟨t, ht, hmatch⟩ := hr
    rw [List.mem_reverse, List.mem_filter] at ht
    obtain ⟨htmem, htopen⟩ := ht
    cases hm : s.members.find? (fun x => x.member_id == t.member_id) with
    | none =>
        rw [hm] at hmatch
        cases s.books.find? (fun x => x.book_id == t.book_id) <;> simp at hmatch
    | some m =>
      cases hb : s.books.find? (fun x => x.book_id == t.book_id) with
      | none => rw [hm, hb] at hmatch; simp at hmatch
      | some bk =>
        rw [hm, hb] at hmatch
        obtain rfl : (t, m.name, bk.title) = r := by injection hmatch
        by_cases hlt : t.due_date < today
        · rw [if_pos hlt] at hg
          injection hg with hg
          obtain ⟨h1, h2, h3⟩ : m.name = mn ∧ bk.title = bt ∧ today - t.due_date = d := by
            rw [Prod.mk.injEq, Prod.mk.injEq] at hg
            exact ⟨hg.1, hg.2.1, hg.2.2⟩
          exact ⟨t, htmem, by simpa using htopen, hlt, h3.symm,
            ⟨m, hm, h1⟩, ⟨bk, hb, h2⟩⟩
        · rw [if_neg hlt] at hg
          simp at hg
  · rintro ⟨t, htmem, hopen, hlt, rfl, ⟨m, hm, rfl⟩, ⟨bk, hb, rfl⟩⟩
    refine ⟨(t, m.name, bk.title), ?_, ?_⟩
    · rw [List.mem_filterMap]
      refine ⟨t, ?_, ?_⟩
      · rw [List.mem_reverse, List.mem_filter]
        exact ⟨htmem, by simp [hopen]⟩
      · rw [hm, hb]
    · rw [if_pos hlt]

end LibraDesk
